import Mathlib

/-!
Verification of the mc-launcher repository (src/main.rs, src/utils.rs).

The Rust source is shallowly embedded: the serde data model becomes Lean
structures, the file system becomes an association list from path strings to
file contents, the network becomes an oracle `String → Option FileData`
(`none` models a failed / unparsable GET), and each fallible Rust function
becomes a Lean function returning an explicit result value that also carries
the list of GET requests it issued (so that "no retry" and "no download"
claims are statable).  Local file writes, which the source performs with
`fs::File::create` / `write_all`, are modelled as always succeeding; the
parallel asset-download loop (one thread per object, joined before the next
phase) is modelled as a sequential fold, which is faithful because each
thread touches only its own target path and the code joins every handle
before continuing.
-/

set_option maxHeartbeats 1000000

namespace MCLauncher

/-! ## Data model (utils.rs lines 11-63) -/

/-- utils.rs lines 42-45: `struct DownloadInfo { url: String }`. -/
structure DownloadInfo where
  url : String
deriving DecidableEq, Repr

/-- utils.rs lines 53-57: `struct LibraryDownloads { artifact: Option<DownloadInfo>,
classifiers: Option<HashMap<String, DownloadInfo>> }`.  The hash map is embedded
as an association list. -/
structure LibraryDownloads where
  artifact : Option DownloadInfo
  classifiers : Option (List (String × DownloadInfo))
deriving DecidableEq, Repr

/-- utils.rs lines 47-51: `struct Library { downloads: LibraryDownloads, name: String }`. -/
structure Library where
  downloads : LibraryDownloads
  name : String
deriving DecidableEq, Repr

/-- utils.rs lines 22-26: `struct AssetIndex { id: String, url: String }`. -/
structure AssetIndex where
  id : String
  url : String
deriving DecidableEq, Repr

/-- utils.rs lines 37-40: `struct Downloads { client: DownloadInfo }`. -/
structure Downloads where
  client : DownloadInfo
deriving DecidableEq, Repr

/-- utils.rs lines 28-35: `struct VersionDetail`.  The unused `arguments`
field (an `Option` never read by the launcher) is omitted. -/
structure VersionDetail where
  downloads : Downloads
  mainClass : String
  libraries : List Library
  assetIndex : AssetIndex
deriving DecidableEq, Repr

/-- One entry of a zip archive: its stored name and its decompressed bytes. -/
structure ZipEntry where
  name : String
  data : List Nat
deriving DecidableEq, Repr

/-- Contents of a local file: raw downloaded bytes, a zip archive (a jar whose
entries `ZipArchive::new` can index), or the serialized version-detail JSON
written by `download_version_files` and parsed back by `main`. -/
inductive FileData where
  | bytes : List Nat → FileData
  | archive : List ZipEntry → FileData
  | detail : VersionDetail → FileData
deriving DecidableEq, Repr

/-! ## File-system and network model -/

/-- First-match lookup in an association list (used for both the file system
and the embedded `HashMap` of native classifiers). -/
def lookupAssoc {α : Type} (p : String) : List (String × α) → Option α
  | [] => none
  | e :: rest => if e.1 = p then some e.2 else lookupAssoc p rest

/-- The local file system: a map from path strings to file contents.
A write prepends, so later writes shadow earlier ones. -/
structure FS where
  files : List (String × FileData)
deriving DecidableEq, Repr

/-- `File::open` / reading a path. -/
def FS.lookupFile (fs : FS) (p : String) : Option FileData :=
  lookupAssoc p fs.files

/-- `std::path::Path::new(&path).exists()`. -/
def FS.hasFile (fs : FS) (p : String) : Bool :=
  (fs.lookupFile p).isSome

/-- `fs::File::create` + `write_all`: (over)write a file. -/
def FS.write (fs : FS) (p : String) (d : FileData) : FS :=
  ⟨(p, d) :: fs.files⟩

/-- The network: a blocking GET returns the body on success and `none` on any
request or parse failure.  The oracle is a pure function, modelling "no remote
changes" during a run. -/
abbrev Net := String → Option FileData

/-! ## Path computations embedded from the source -/

/-- utils.rs line 133: `lib.name.replace(":", "-")`.  The pattern and the
replacement are single characters, so `str::replace` is a character map. -/
def replaceColonDash (s : String) : String :=
  ⟨s.data.map (fun c => if c = ':' then '-' else c)⟩

/-- utils.rs lines 133-134 (inside `download_libraries`):
`format!("minecraft/libs/{}.jar", lib.name.replace(":", "-"))`. -/
def downloadLibrariesLocalPath (lib : Library) : String :=
  "minecraft/libs/" ++ replaceColonDash lib.name ++ ".jar"

/-- utils.rs lines 214-215 (inside `extract_natives`):
`format!("minecraft/libs/{}.jar", lib.name.replace(":", "-"))`. -/
def extractNativesLocalPath (lib : Library) : String :=
  "minecraft/libs/" ++ replaceColonDash lib.name ++ ".jar"

/-- utils.rs line 161: `hash[0..2].to_string()` — the first two characters of
the (ASCII hex) hash string. -/
def assetObjectSubdir (h : String) : String :=
  ⟨h.data.take 2⟩

/-- utils.rs line 162:
`format!("https://resources.download.minecraft.net/{}/{}", subdir, hash)`. -/
def assetObjectUrl (h : String) : String :=
  "https://resources.download.minecraft.net/" ++ assetObjectSubdir h ++ "/" ++ h

/-- utils.rs line 163: `format!("minecraft/assets/objects/{}/{}", subdir, hash)`. -/
def assetObjectPath (h : String) : String :=
  "minecraft/assets/objects/" ++ assetObjectSubdir h ++ "/" ++ h

/-- utils.rs line 193 with line 186:
`format!("{}/{}", "minecraft/assets/virtual/legacy", name)`. -/
def assetVirtualPath (n : String) : String :=
  "minecraft/assets/virtual/legacy/" ++ n

/-- Rust `Vec::join(sep)`: concatenation with `sep` between consecutive
elements (main.rs line 164 uses `lib_paths.join(";")`). -/
def joinSep (sep : String) : List String → String
  | [] => ""
  | [s] => s
  | s :: t :: rest => s ++ sep ++ joinSep sep (t :: rest)

/-- main.rs lines 163-166: `let mut classpath = lib_paths.join(";");
classpath.push(';'); classpath.push_str(&jar_path);`. -/
def buildClasspath (libPaths : List String) (jarPath : String) : String :=
  joinSep ";" libPaths ++ ";" ++ jarPath

/-! ## Small sanity facts about the file-system model -/

theorem lookupAssoc_cons {α : Type} (p q : String) (d : α) (l : List (String × α)) :
    lookupAssoc p ((q, d) :: l) = if q = p then some d else lookupAssoc p l := rfl

@[simp] theorem FS.lookupFile_write (fs : FS) (p q : String) (d : FileData) :
    (fs.write p d).lookupFile q = if p = q then some d else fs.lookupFile q := rfl

theorem FS.hasFile_write (fs : FS) (p q : String) (d : FileData) :
    (fs.write p d).hasFile q = true ↔ (p = q ∨ fs.hasFile q = true) := by
  simp only [FS.hasFile, FS.lookupFile_write]
  split <;> simp_all

theorem FS.hasFile_write_mono (fs : FS) (p q : String) (d : FileData)
    (h : fs.hasFile q = true) : (fs.write p d).hasFile q = true := by
  rw [FS.hasFile_write]; exact Or.inr h

theorem FS.hasFile_write_self (fs : FS) (p : String) (d : FileData) :
    (fs.write p d).hasFile p = true := by
  rw [FS.hasFile_write]; exact Or.inl rfl

/-! ## Zip entry names (`ZipFile::enclosed_name`, `Path::file_name`,
`Path::extension`)

Zip entry names use `/` as the separator (the zip format mandates it), so the
`std::path::Path` operations the source applies to an entry name are modelled
over `/`-separated strings. -/

/-- Split a character list at every `/` (the pieces between separators,
including empty pieces). -/
def splitSlash : List Char → List (List Char)
  | [] => [[]]
  | c :: cs =>
    if c = '/' then [] :: splitSlash cs
    else
      match splitSlash cs with
      | h :: t => (c :: h) :: t
      | [] => [[c]]

/-- `Path::components` of a zip entry name: the `/`-separated pieces with
empty pieces and `.` pieces normalized away (`..` is kept). -/
def pathComponents (s : String) : List (List Char) :=
  (splitSlash s.data).filter (fun c => !c.isEmpty && !(c == ['.']))

/-- The running-depth check of `ZipFile::enclosed_name` (zip crate): each
normal component pushes one level, each `..` pops one, and popping at depth 0
(escaping the output directory) fails. -/
def enclosedDepth : List (List Char) → Nat → Option Nat
  | [], d => some d
  | c :: rest, d =>
    if c = ['.', '.'] then
      match d with
      | 0 => none
      | Nat.succ d2 => enclosedDepth rest d2
    else enclosedDepth rest (d + 1)

/-- A leading `/` makes the path absolute (`Component::RootDir`). -/
def isAbsolutePath (s : String) : Bool :=
  match s.data with
  | '/' :: _ => true
  | _ => false

/-- `file.enclosed_name().is_some()` (utils.rs lines 226-229): the name has no
NUL byte, is not absolute, and never escapes the output directory through
`..` components. -/
def enclosedNameOk (s : String) : Bool :=
  !(s.data.contains (Char.ofNat 0)) && !(isAbsolutePath s) &&
    (enclosedDepth (pathComponents s) 0).isSome

/-- `Path::file_name`: the last component, unless it is `..`. -/
def fileNameOf (s : String) : Option (List Char) :=
  match (pathComponents s).getLast? with
  | none => none
  | some c => if c = ['.', '.'] then none else some c

/-- `Path::extension` applied to a file name `f`: `none` when `f` has no dot
or when the part before the last dot is empty (a leading-dot file with no
other dot); otherwise the part after the last dot. -/
def extensionOf (f : List Char) : Option (List Char) :=
  let after := (f.reverse.takeWhile (fun c => c != '.')).reverse
  if after.length = f.length then none
  else if f.length = after.length + 1 then none
  else some after

/-! ## The synchronization operations -/

/-- Result of `download_version_files` (utils.rs lines 107-125): the updated
file system on success, plus the list of GET requests issued, in order. -/
inductive DvfResult where
  | ok (fs : FS) (log : List String)
  | err (log : List String)
deriving DecidableEq, Repr

/-- utils.rs lines 107-125: fetch the version-detail JSON, fetch the client
jar, then write `minecraft/<id>.jar` and `minecraft/<id>.json`.  Either fetch
failure propagates with `?` before anything is written.  The version-detail
GET-and-parse is a separate oracle `netDetail` because its body is parsed
into a `VersionDetail`. -/
def download_version_files (netDetail : String → Option VersionDetail) (net : Net)
    (fs : FS) (versionId versionUrl : String) : DvfResult :=
  match netDetail versionUrl with
  | none => .err [versionUrl]
  | some vd =>
    match net vd.downloads.client.url with
    | none => .err [versionUrl, vd.downloads.client.url]
    | some clientData =>
      .ok ((fs.write ("minecraft/" ++ versionId ++ ".jar") clientData).write
            ("minecraft/" ++ versionId ++ ".json") (FileData.detail vd))
          [versionUrl, vd.downloads.client.url]

/-- Result of `download_libraries` (utils.rs lines 127-144): on success the
updated file system, the classpath entries pushed (in order), and the GET log;
on error (which aborts the loop at the first failed download) the file system
as mutated so far and the GET log including the failed attempt. -/
inductive DlResult where
  | ok (fs : FS) (paths : List String) (log : List String)
  | err (fs : FS) (log : List String)
deriving DecidableEq, Repr

/-- utils.rs lines 127-144: for each library with a plain artifact, compute
`minecraft/libs/<name-with-colons-dashed>.jar`, download it unless the path
already exists, and push the path; a library without an artifact is skipped
entirely; a failed GET propagates with `?`, aborting the whole function. -/
def download_libraries (net : Net) : FS → List Library → DlResult
  | fs, [] => .ok fs [] []
  | fs, lib :: rest =>
    match lib.downloads.artifact with
    | none => download_libraries net fs rest
    | some artifact =>
      let path := downloadLibrariesLocalPath lib
      if fs.hasFile path then
        match download_libraries net fs rest with
        | .ok fs2 paths log => .ok fs2 (path :: paths) log
        | .err fs2 log => .err fs2 log
      else
        match net artifact.url with
        | none => .err fs [artifact.url]
        | some d =>
          match download_libraries net (fs.write path d) rest with
          | .ok fs2 paths log => .ok fs2 (path :: paths) (artifact.url :: log)
          | .err fs2 log => .err fs2 (artifact.url :: log)

/-- utils.rs lines 224-234: the inner extraction loop of `extract_natives`.
For every archive entry: skip it when `enclosed_name()` rejects it; when its
extension is exactly `dll`, write its decompressed bytes flat into
`minecraft/natives/` under the entry's base file name (`Path::extension` is
defined through `Path::file_name`, so the match on the file name comes
first; an entry with no file name has no extension and fails the filter). -/
def extractArchive (fs : FS) : List ZipEntry → FS
  | [] => fs
  | e :: rest =>
    if enclosedNameOk e.name then
      match fileNameOf e.name with
      | some f =>
        if extensionOf f = some ['d', 'l', 'l'] then
          extractArchive (fs.write ("minecraft/natives/" ++ String.mk f) (FileData.bytes e.data)) rest
        else extractArchive fs rest
      | none => extractArchive fs rest
    else extractArchive fs rest

/-- Failure cases of `extract_natives`: a failed native-bundle GET, or a file
at the jar path that `ZipArchive::new` cannot index. -/
inductive NatErr where
  | network
  | corruptArchive
deriving DecidableEq, Repr

/-- Result of `extract_natives` (utils.rs lines 209-238). -/
inductive NatResult where
  | ok (fs : FS) (log : List String)
  | err (fs : FS) (log : List String) (e : NatErr)
deriving DecidableEq, Repr

/-- utils.rs lines 209-238: for each library with a `natives-windows`
classifier, download the bundle to `minecraft/libs/<name-with-colons-dashed>.jar`
unless that path already exists, then open whatever file is at that path as a
zip archive and extract its `dll` entries.  A failed GET or an unindexable
archive propagates with `?`. -/
def extract_natives (net : Net) : FS → List Library → NatResult
  | fs, [] => .ok fs []
  | fs, lib :: rest =>
    match lib.downloads.classifiers with
    | none => extract_natives net fs rest
    | some cs =>
      match lookupAssoc "natives-windows" cs with
      | none => extract_natives net fs rest
      | some native =>
        let path := extractNativesLocalPath lib
        if fs.hasFile path then
          match fs.lookupFile path with
          | some (FileData.archive es) => extract_natives net (extractArchive fs es) rest
          | _ => .err fs [] NatErr.corruptArchive
        else
          match net native.url with
          | none => .err fs [native.url] NatErr.network
          | some d =>
            match d with
            | FileData.archive es =>
              match extract_natives net (extractArchive (fs.write path d) es) rest with
              | .ok fs2 log => .ok fs2 (native.url :: log)
              | .err fs2 log e => .err fs2 (native.url :: log) e
            | _ => .err (fs.write path d) [native.url] NatErr.corruptArchive

/-- utils.rs lines 168-179: the body of one asset-download thread.  The
target is a `(url, path)` pair; when the path already exists nothing happens;
otherwise a GET is attempted and every failure (`let _ = ...`, `if let Ok`)
is swallowed.  Returns the updated file system and the GETs issued. -/
def downloadAssetObject (net : Net) (fs : FS) (t : String × String) : FS × List String :=
  if fs.hasFile t.2 then (fs, [])
  else
    match net t.1 with
    | some d => (fs.write t.2 d, [t.1])
    | none => (fs, [t.1])

/-- utils.rs lines 168-183: the spawn-and-join of one thread per asset
object, modelled as a sequential fold (each thread writes only its own target
path, and every handle is joined before the function continues). -/
def bulkDownloadAssets (net : Net) : FS → List (String × String) → FS × List String
  | fs, [] => (fs, [])
  | fs, t :: rest =>
    let r1 := downloadAssetObject net fs t
    let r2 := bulkDownloadAssets net r1.1 rest
    (r2.1, r1.2 ++ r2.2)

/-- utils.rs lines 159-165: the `(url, path)` target computed for each
`(name, hash)` object of the asset index. -/
def assetTargets (objects : List (String × String)) : List (String × String) :=
  objects.map (fun o => (assetObjectUrl o.2, assetObjectPath o.2))

/-- utils.rs lines 189-204: one step of the virtual/legacy loop.  When the
object-store file exists and the virtual path does not, copy the object file
to `minecraft/assets/virtual/legacy/<name>` (`fs::copy` guarded by the two
existence checks; parent-directory creation is a no-op in this model). -/
def legacyCopyStep (fs : FS) (obj : String × String) : FS :=
  let objectPath := assetObjectPath obj.2
  let virtualPath := assetVirtualPath obj.1
  if fs.hasFile objectPath && !(fs.hasFile virtualPath) then
    match fs.lookupFile objectPath with
    | some d => fs.write virtualPath d
    | none => fs
  else fs

/-- utils.rs lines 189-204: the whole virtual/legacy loop. -/
def legacyCopyAll : FS → List (String × String) → FS
  | fs, [] => fs
  | fs, o :: rest => legacyCopyAll (legacyCopyStep fs o) rest

/-- Result of `download_assets` (utils.rs lines 146-207): `err` only when the
asset-index GET-or-parse fails (line 147, the only `?` on a request). -/
inductive AsResult where
  | ok (fs : FS) (log : List String)
  | err
deriving DecidableEq, Repr

/-- utils.rs lines 146-207: fetch and save the asset index (fatal on
failure), bulk-download the objects with per-item failures swallowed, then
populate the virtual/legacy mirror.  `netIndex` is the GET-and-parse oracle
for the index: it yields the `(name, hash)` pairs of the `objects` map. -/
def download_assets (net : Net) (netIndex : String → Option (List (String × String)))
    (fs : FS) (ai : AssetIndex) : AsResult :=
  match netIndex ai.url with
  | none => .err
  | some objects =>
    let fs1 := fs.write ("minecraft/assets/indexes/" ++ ai.id ++ ".json") (FileData.bytes [])
    let r := bulkDownloadAssets net fs1 (assetTargets objects)
    .ok (legacyCopyAll r.1 objects) r.2

/-! ## The launcher run (main.rs lines 21-212) -/

/-- `pat` is a prefix of `l` (Rust `str::starts_with`). -/
def leadsWith : List Char → List Char → Bool
  | [], _ => true
  | _ :: _, [] => false
  | p :: ps, c :: cs => p = c && leadsWith ps cs

/-- `pat` occurs contiguously inside `l` (Rust `str::contains`). -/
def hasSubSeq (pat : List Char) : List Char → Bool
  | [] => leadsWith pat []
  | c :: cs => leadsWith pat (c :: cs) || hasSubSeq pat cs

/-- main.rs line 33: the characters of the release-filter pattern `"1."`. -/
def majorVersionMark : List Char := ['1', '.']

/-- main.rs line 33: the characters of the filter pattern `"snapshot"`. -/
def snapshotMark : List Char := ['s', 'n', 'a', 'p', 's', 'h', 'o', 't']

/-- How the process run ends.  Rust `fn main() -> ()` exits with status 0 on
every `return` path, so each `aborted` outcome the code produces carries exit
code 0; `panicked` stands for the `expect`/`unwrap` paths. -/
inductive RunOutcome where
  | aborted (msg : String) (exitCode : Nat)
  | panicked
  | launched (classpath : String) (exitCode : Nat)
deriving DecidableEq, Repr

/-- main.rs lines 21-212, from the manifest fetch to the `java` invocation.
The interactive prompt is modelled by passing `choice` directly (main.rs
lines 55-64 produce exactly such a number), `detect_java` by `javaPaths`, and
the manifest fetch by the `netManifest` oracle.  The diagnostic
missing-library and missing-asset loops (lines 137-161) only print, so they
are omitted; the version-JSON and asset-index reads that `expect` (lines
100-104 and 144-151) are modelled, with `panicked` for their failure paths.
The final `java` child process is external; `launched` carries the assembled
classpath, and the launcher's own exit code is 0 on every path. -/
def runMain (netManifest : Option (List (String × String)))
    (netDetail : String → Option VersionDetail) (net : Net)
    (netIndex : String → Option (List (String × String)))
    (showAll : Bool) (choice : Nat) (javaPaths : List String)
    (fs : FS) : RunOutcome × FS :=
  match netManifest with
  | none => (.aborted "Failed to fetch versions" 0, fs)
  | some vall =>
    let versions := if showAll then vall
      else vall.filter (fun p =>
        leadsWith majorVersionMark p.1.data && !(hasSubSeq snapshotMark p.1.data))
    if hc : choice = 0 ∨ versions.length < choice then (.aborted "Invalid choice." 0, fs)
    else if javaPaths.isEmpty then
      (.aborted "No Java installations found. Please install Java." 0, fs)
    else
      let sel := versions.get ⟨choice - 1, by omega⟩
      match download_version_files netDetail net fs sel.1 sel.2 with
      | .err _ => (.aborted "Failed to download files" 0, fs)
      | .ok fs1 _ =>
        let jarPath := "minecraft/" ++ sel.1 ++ ".jar"
        match fs1.lookupFile ("minecraft/" ++ sel.1 ++ ".json") with
        | some (FileData.detail vd) =>
          match download_libraries net fs1 vd.libraries with
          | .err fsE _ => (.aborted "Failed to download libraries" 0, fsE)
          | .ok fs2 libPaths _ =>
            match extract_natives net fs2 vd.libraries with
            | .err fsE _ _ => (.aborted "Failed to extract natives" 0, fsE)
            | .ok fs3 _ =>
              match download_assets net netIndex fs3 vd.assetIndex with
              | .err => (.aborted "Failed to download assets" 0, fs3)
              | .ok fs4 _ =>
                match fs4.lookupFile
                    ("minecraft/assets/indexes/" ++ vd.assetIndex.id ++ ".json") with
                | some _ => (.launched (buildClasspath libPaths jarPath) 0, fs4)
                | none => (.panicked, fs4)
        | _ => (.panicked, fs1)

/-! ## Lemmas about `download_libraries` -/

/-- The classpath entries `download_libraries` pushes: one per library with a
plain artifact, in manifest order. -/
def artifactPaths (libs : List Library) : List String :=
  libs.filterMap (fun l =>
    match l.downloads.artifact with
    | some _ => some (downloadLibrariesLocalPath l)
    | none => none)

theorem download_libraries_ok_paths (net : Net) :
    ∀ (libs : List Library) (fs fs2 : FS) (paths log : List String),
    download_libraries net fs libs = .ok fs2 paths log → paths = artifactPaths libs := by
  intro libs
  induction libs with
  | nil =>
    intro fs fs2 paths log h
    simp only [download_libraries, DlResult.ok.injEq] at h
    simp only [artifactPaths, List.filterMap_nil]
    exact h.2.1.symm
  | cons lib rest ih =>
    intro fs fs2 paths log h
    simp only [download_libraries] at h
    simp only [artifactPaths, List.filterMap_cons]
    split at h
    next ha =>
      rw [ha]
      exact ih _ _ _ _ h
    next a ha =>
      rw [ha]
      simp only
      split at h
      · split at h
        next fs3 paths3 log3 hr =>
          rw [DlResult.ok.injEq] at h
          obtain ⟨-, h2, -⟩ := h
          rw [← h2, ih _ _ _ _ hr]
          rfl
        next => cases h
      · split at h
        next => cases h
        next d hn =>
          split at h
          next fs3 paths3 log3 hr =>
            rw [DlResult.ok.injEq] at h
            obtain ⟨-, h2, -⟩ := h
            rw [← h2, ih _ _ _ _ hr]
            rfl
          next => cases h

theorem download_libraries_mono (net : Net) :
    ∀ (libs : List Library) (fs fs2 : FS) (paths log : List String),
    download_libraries net fs libs = .ok fs2 paths log →
    ∀ p, fs.hasFile p = true → fs2.hasFile p = true := by
  intro libs
  induction libs with
  | nil =>
    intro fs fs2 paths log h p hp
    simp only [download_libraries, DlResult.ok.injEq] at h
    exact h.1 ▸ hp
  | cons lib rest ih =>
    intro fs fs2 paths log h p hp
    simp only [download_libraries] at h
    split at h
    next ha => exact ih _ _ _ _ h p hp
    next a ha =>
      split at h
      · split at h
        next fs3 paths3 log3 hr =>
          rw [DlResult.ok.injEq] at h
          exact h.1 ▸ ih _ _ _ _ hr p hp
        next => cases h
      · split at h
        next => cases h
        next d hn =>
          split at h
          next fs3 paths3 log3 hr =>
            rw [DlResult.ok.injEq] at h
            exact h.1 ▸ ih _ _ _ _ hr p (FS.hasFile_write_mono _ _ _ _ hp)
          next => cases h

theorem download_libraries_paths_exist (net : Net) :
    ∀ (libs : List Library) (fs fs2 : FS) (paths log : List String),
    download_libraries net fs libs = .ok fs2 paths log →
    ∀ p ∈ paths, fs2.hasFile p = true := by
  intro libs
  induction libs with
  | nil =>
    intro fs fs2 paths log h
    simp only [download_libraries, DlResult.ok.injEq] at h
    rw [← h.2.1]
    intro p hp
    cases hp
  | cons lib rest ih =>
    intro fs fs2 paths log h
    simp only [download_libraries] at h
    split at h
    next ha => exact ih _ _ _ _ h
    next a ha =>
      split at h
      next hex =>
        split at h
        next fs3 paths3 log3 hr =>
          rw [DlResult.ok.injEq] at h
          obtain ⟨h1, h2, -⟩ := h
          rw [← h1, ← h2]
          intro p hp
          rcases List.mem_cons.mp hp with hp | hp
          · subst hp
            exact download_libraries_mono net rest fs fs3 paths3 log3 hr _ hex
          · exact ih _ _ _ _ hr p hp
        next => cases h
      next hex =>
        split at h
        next => cases h
        next d hn =>
          split at h
          next fs3 paths3 log3 hr =>
            rw [DlResult.ok.injEq] at h
            obtain ⟨h1, h2, -⟩ := h
            rw [← h1, ← h2]
            intro p hp
            rcases List.mem_cons.mp hp with hp | hp
            · subst hp
              exact download_libraries_mono net rest _ fs3 paths3 log3 hr _
                (FS.hasFile_write_self fs _ d)
            · exact ih _ _ _ _ hr p hp
          next => cases h

theorem download_libraries_all_present (net : Net) :
    ∀ (libs : List Library) (fs : FS),
    (∀ lib ∈ libs, ∀ a, lib.downloads.artifact = some a →
      fs.hasFile (downloadLibrariesLocalPath lib) = true) →
    download_libraries net fs libs = .ok fs (artifactPaths libs) [] := by
  intro libs
  induction libs with
  | nil => intro fs _; rfl
  | cons lib rest ih =>
    intro fs hall
    have hrest : ∀ l ∈ rest, ∀ a, l.downloads.artifact = some a →
        fs.hasFile (downloadLibrariesLocalPath l) = true :=
      fun l hl => hall l (List.mem_cons_of_mem _ hl)
    simp only [download_libraries]
    cases ha : lib.downloads.artifact with
    | none =>
      simp only [artifactPaths, List.filterMap_cons, ha]
      exact ih fs hrest
    | some a =>
      have hex := hall lib (List.mem_cons_self _ _) a ha
      simp only [hex, if_true, ih fs hrest, artifactPaths, List.filterMap_cons, ha]

theorem download_libraries_rerun (net : Net) (libs : List Library)
    (fs fs2 : FS) (paths log : List String)
    (h : download_libraries net fs libs = .ok fs2 paths log) :
    download_libraries net fs2 libs = .ok fs2 paths [] := by
  have hp := download_libraries_ok_paths net libs fs fs2 paths log h
  subst hp
  apply download_libraries_all_present
  intro lib hl a ha
  apply download_libraries_paths_exist net libs fs fs2 _ log h
  simp only [artifactPaths, List.mem_filterMap]
  exact ⟨lib, hl, by rw [ha]⟩

theorem download_libraries_first_failure (net : Net) (fs : FS)
    (lib : Library) (rest : List Library) (a : DownloadInfo)
    (ha : lib.downloads.artifact = some a)
    (hex : fs.hasFile (downloadLibrariesLocalPath lib) = false)
    (hn : net a.url = none) :
    download_libraries net fs (lib :: rest) = .err fs [a.url] := by
  simp only [download_libraries, ha, hex, hn]
  rfl

/-! ## Lemmas about the bulk asset download -/

theorem downloadAssetObject_skip (net : Net) (fs : FS) (t : String × String)
    (h : fs.hasFile t.2 = true) : downloadAssetObject net fs t = (fs, []) := by
  simp [downloadAssetObject, h]

theorem downloadAssetObject_mono (net : Net) (fs : FS) (t : String × String)
    (p : String) (hp : fs.hasFile p = true) :
    (downloadAssetObject net fs t).1.hasFile p = true := by
  unfold downloadAssetObject
  split
  · exact hp
  · cases hn : net t.1 with
    | some d => simpa [hn] using FS.hasFile_write_mono _ _ _ _ hp
    | none => simpa [hn] using hp

theorem downloadAssetObject_success (net : Net) (fs : FS) (t : String × String)
    (d : FileData) (hn : net t.1 = some d) :
    (downloadAssetObject net fs t).1.hasFile t.2 = true := by
  unfold downloadAssetObject
  split
  next h => exact h
  next h => simpa [hn] using FS.hasFile_write_self _ _ _

theorem bulkDownloadAssets_mono (net : Net) :
    ∀ (targets : List (String × String)) (fs : FS) (p : String),
    fs.hasFile p = true → (bulkDownloadAssets net fs targets).1.hasFile p = true := by
  intro targets
  induction targets with
  | nil => intro fs p hp; exact hp
  | cons t rest ih =>
    intro fs p hp
    simp only [bulkDownloadAssets]
    exact ih _ p (downloadAssetObject_mono net fs t p hp)

theorem bulkDownloadAssets_success_exists (net : Net) :
    ∀ (targets : List (String × String)) (fs : FS),
    ∀ t ∈ targets, ∀ d, net t.1 = some d →
    (bulkDownloadAssets net fs targets).1.hasFile t.2 = true := by
  intro targets
  induction targets with
  | nil => intro fs t ht; cases ht
  | cons t0 rest ih =>
    intro fs t ht d hd
    simp only [bulkDownloadAssets]
    rcases List.mem_cons.mp ht with ht | ht
    · subst ht
      exact bulkDownloadAssets_mono net rest _ _ (downloadAssetObject_success net fs t d hd)
    · exact ih _ t ht d hd

theorem bulkDownloadAssets_rerun (net : Net) :
    ∀ (targets : List (String × String)) (fs : FS),
    (∀ t ∈ targets, fs.hasFile t.2 = true) →
    bulkDownloadAssets net fs targets = (fs, []) := by
  intro targets
  induction targets with
  | nil => intro fs _; rfl
  | cons t rest ih =>
    intro fs hall
    simp only [bulkDownloadAssets,
      downloadAssetObject_skip net fs t (hall t (List.mem_cons_self _ _)),
      ih fs (fun x hx => hall x (List.mem_cons_of_mem _ hx)), List.nil_append]

/-! ## Lemmas about the virtual/legacy mirror loop -/

/-- A virtual-legacy mirror path and an object-store path are never the same
string: they differ within their first 25 characters. -/
theorem assetVirtualPath_ne_assetObjectPath (n h : String) :
    assetVirtualPath n ≠ assetObjectPath h := by
  intro heq
  have hd : (assetVirtualPath n).data = (assetObjectPath h).data :=
    congrArg String.data heq
  have h1 : (assetVirtualPath n).data = "minecraft/assets/virtual/legacy/".data ++ n.data :=
    String.data_append _ _
  have h2 : (assetObjectPath h).data =
      "minecraft/assets/objects/".data ++
        ((assetObjectSubdir h).data ++ ("/".data ++ h.data)) := by
    simp [assetObjectPath, String.data_append]
  have e1 : (assetVirtualPath n).data.take 25 =
      "minecraft/assets/virtual/legacy/".data.take 25 := by
    rw [h1]; exact List.take_append_of_le_length (by decide)
  have e2 : (assetObjectPath h).data.take 25 = "minecraft/assets/objects/".data.take 25 := by
    rw [h2]; exact List.take_append_of_le_length (by decide)
  have hc : "minecraft/assets/virtual/legacy/".data.take 25 =
      "minecraft/assets/objects/".data.take 25 := by
    rw [← e1, ← e2, hd]
  exact absurd hc (by decide)

theorem legacyCopyStep_mono (fs : FS) (o : String × String) (p : String)
    (hp : fs.hasFile p = true) : (legacyCopyStep fs o).hasFile p = true := by
  simp only [legacyCopyStep]
  split
  · split
    · exact FS.hasFile_write_mono _ _ _ _ hp
    · exact hp
  · exact hp

/-- The legacy loop writes only virtual-mirror paths: a file present after one
step was present before, or is the step's virtual path. -/
theorem legacyCopyStep_new (fs : FS) (o : String × String) (p : String)
    (hp : (legacyCopyStep fs o).hasFile p = true) :
    fs.hasFile p = true ∨ p = assetVirtualPath o.1 := by
  simp only [legacyCopyStep] at hp
  split at hp
  · split at hp
    next d hd =>
      rcases (FS.hasFile_write fs _ p d).mp hp with h | h
      · exact Or.inr h.symm
      · exact Or.inl h
    next => exact Or.inl hp
  · exact Or.inl hp

/-- After a step for object `o`, if `o`'s object-store file exists then `o`'s
virtual-mirror file exists. -/
theorem legacyCopyStep_establishes (fs : FS) (o : String × String)
    (hobj : (legacyCopyStep fs o).hasFile (assetObjectPath o.2) = true) :
    (legacyCopyStep fs o).hasFile (assetVirtualPath o.1) = true := by
  simp only [legacyCopyStep] at hobj ⊢
  split
  next hc =>
    rw [Bool.and_eq_true, Bool.not_eq_true'] at hc
    cases hl : fs.lookupFile (assetObjectPath o.2) with
    | some d => simp only [hl]; exact FS.hasFile_write_self _ _ _
    | none =>
      exact absurd hc.1 (by simp [FS.hasFile, hl])
  next hc =>
    split at hobj
    next hc2 => exact absurd hc2 hc
    next =>
      rw [Bool.and_eq_true, Bool.not_eq_true'] at hc
      cases hv : fs.hasFile (assetVirtualPath o.1) with
      | false => exact absurd ⟨hobj, hv⟩ hc
      | true => rfl

theorem legacyCopyAll_mono :
    ∀ (objs : List (String × String)) (fs : FS) (p : String),
    fs.hasFile p = true → (legacyCopyAll fs objs).hasFile p = true := by
  intro objs
  induction objs with
  | nil => intro fs p hp; exact hp
  | cons o rest ih =>
    intro fs p hp
    exact ih _ p (legacyCopyStep_mono fs o p hp)

theorem legacyCopyAll_new :
    ∀ (objs : List (String × String)) (fs : FS) (p : String),
    (legacyCopyAll fs objs).hasFile p = true →
    fs.hasFile p = true ∨ ∃ o ∈ objs, p = assetVirtualPath o.1 := by
  intro objs
  induction objs with
  | nil => intro fs p hp; exact Or.inl hp
  | cons o rest ih =>
    intro fs p hp
    rcases ih _ p hp with h1 | ⟨o2, ho2, heq⟩
    · rcases legacyCopyStep_new fs o p h1 with h2 | h2
      · exact Or.inl h2
      · exact Or.inr ⟨o, List.mem_cons_self _ _, h2⟩
    · exact Or.inr ⟨o2, List.mem_cons_of_mem _ ho2, heq⟩

/-- The mirror invariant of the legacy loop: afterwards, every indexed object
whose object-store file exists also has its virtual-mirror file. -/
theorem legacyCopyAll_invariant :
    ∀ (objs : List (String × String)) (fs : FS) (n h : String), (n, h) ∈ objs →
    (legacyCopyAll fs objs).hasFile (assetObjectPath h) = true →
    (legacyCopyAll fs objs).hasFile (assetVirtualPath n) = true := by
  intro objs
  induction objs with
  | nil => intro fs n h hm; cases hm
  | cons o rest ih =>
    intro fs n h hm hobj
    simp only [legacyCopyAll] at hobj ⊢
    rcases List.mem_cons.mp hm with hm | hm
    · subst hm
      rcases legacyCopyAll_new rest _ _ hobj with h1 | ⟨o2, _, heq⟩
      · exact legacyCopyAll_mono rest _ _ (legacyCopyStep_establishes fs (n, h) h1)
      · exact absurd heq.symm (assetVirtualPath_ne_assetObjectPath o2.1 h)
    · exact ih _ n h hm hobj

/-! ## Lemmas about archive extraction and the classpath -/

/-- Companion definition following the spec's wording of the extraction
filter: the flat output base name an archive entry produces, defined exactly
when the entry survives path-sanitization and its extension matches the `dll`
suffix filter. -/
def dllEntryName (e : ZipEntry) : Option String :=
  if enclosedNameOk e.name then
    match fileNameOf e.name with
    | some f => if extensionOf f = some ['d', 'l', 'l'] then some (String.mk f) else none
    | none => none
  else none

/-- The files present after the extraction loop are exactly the files present
before plus `minecraft/natives/<base name>` for each surviving `dll` entry. -/
theorem extractArchive_hasFile :
    ∀ (es : List ZipEntry) (fs : FS) (p : String),
    (extractArchive fs es).hasFile p = true ↔
    (fs.hasFile p = true ∨
      ∃ e ∈ es, ∃ f, dllEntryName e = some f ∧ p = "minecraft/natives/" ++ f) := by
  intro es
  induction es with
  | nil =>
    intro fs p
    simp [extractArchive]
  | cons e rest ih =>
    intro fs p
    simp only [extractArchive]
    split
    next hok =>
      cases hf : fileNameOf e.name with
      | some f =>
        simp only
        by_cases hd : extensionOf f = some ['d', 'l', 'l']
        · rw [if_pos hd, ih, List.exists_mem_cons_iff, FS.hasFile_write]
          have hdll : dllEntryName e = some (String.mk f) := by
            simp [dllEntryName, hok, hf, hd]
          constructor
          · rintro ((hq | hfs) | hrest)
            · exact Or.inr (Or.inl ⟨String.mk f, hdll, hq.symm⟩)
            · exact Or.inl hfs
            · exact Or.inr (Or.inr hrest)
          · rintro (hfs | ⟨g, hg, hp⟩ | hrest)
            · exact Or.inl (Or.inr hfs)
            · refine Or.inl (Or.inl ?_)
              rw [hp, Option.some.inj (hdll.symm.trans hg)]
            · exact Or.inr hrest
        · rw [if_neg hd, ih]
          simp [dllEntryName, hok, hf, hd, List.exists_mem_cons_iff]
      | none =>
        simp only
        rw [ih]
        simp [dllEntryName, hok, hf, List.exists_mem_cons_iff]
    next hok =>
      rw [ih]
      simp only [eq_iff_iff, Bool.not_eq_true] at hok
      simp [dllEntryName, hok, List.exists_mem_cons_iff]

theorem joinSep_append_last (sep : String) :
    ∀ (xs : List String) (y : String), xs ≠ [] →
    joinSep sep (xs ++ [y]) = joinSep sep xs ++ sep ++ y := by
  intro xs
  induction xs with
  | nil => intro y hy; exact absurd rfl hy
  | cons x rest ih =>
    intro y _
    cases rest with
    | nil => simp [joinSep]
    | cons x2 t =>
      have hr := ih y (by simp)
      simp only [List.cons_append] at hr ⊢
      simp only [joinSep, hr, String.append_assoc]

/-! ## Concrete fixtures used by witness and counterexample theorems -/

/-- An empty local file system. -/
def emptyFS : FS := ⟨[]⟩

/-- A network on which every GET fails. -/
def failNet : Net := fun _ => none

/-- A metadata-only library: no plain artifact and no native classifiers. -/
def libMetaOnly : Library := ⟨⟨none, none⟩, "org.lwjgl:lwjgl:3.3.1"⟩

/-- A library with a plain artifact at url `lu`. -/
def libArtifact : Library := ⟨⟨some ⟨"lu"⟩, none⟩, "g:a:1"⟩

/-- A network serving only `lu`. -/
def oneLibNet : Net := fun u => if u = "lu" then some (FileData.bytes [0]) else none

/-! ## Claim C2 -/

/-- C2: for every asset object whose hash string has at least 2 characters,
the computed object-store path is
`minecraft/assets/objects/<hash[0:2]>/<hash>` — the storage subdirectory is
exactly the first two characters of the hash — and a fixed hash maps to this
single path only. -/
theorem asset_object_path_content_addressed (h : String) (hlen : 2 ≤ h.length) :
    assetObjectPath h =
      "minecraft/assets/objects/" ++ String.mk (h.data.take 2) ++ "/" ++ h ∧
    (assetObjectSubdir h).length = 2 ∧
    ∀ h2 : String, h2 = h → assetObjectPath h2 = assetObjectPath h := by
  refine ⟨rfl, ?_, fun h2 e => e ▸ rfl⟩
  have hlen2 : 2 ≤ h.data.length := hlen
  simp only [assetObjectSubdir, String.length_mk, List.length_take]
  omega

/-- Witness for C2 at the concrete hash `abc123`. -/
theorem asset_object_path_content_addressed_witness :
    assetObjectPath "abc123" =
      "minecraft/assets/objects/" ++ String.mk ("abc123".data.take 2) ++ "/" ++ "abc123" ∧
    (assetObjectSubdir "abc123").length = 2 ∧
    assetObjectPath "abc123" = assetObjectPath "abc123" := by
  obtain ⟨h1, h2, h3⟩ := asset_object_path_content_addressed "abc123" (by decide)
  exact ⟨h1, h2, h3 "abc123" rfl⟩

/-! ## Claim C6 -/

/-- C6: the computed local artifact path is exactly
`minecraft/libs/<name-with-each-colon-replaced>.jar`, a pure function of the
library name alone — same name, same path, in any run and any library list —
and `download_libraries` pushes exactly these paths (one per artifact-bearing
library, in manifest order). -/
theorem library_path_deterministic :
    (∀ lib : Library, downloadLibrariesLocalPath lib =
      "minecraft/libs/" ++ replaceColonDash lib.name ++ ".jar") ∧
    (∀ l1 l2 : Library, l1.name = l2.name →
      downloadLibrariesLocalPath l1 = downloadLibrariesLocalPath l2) ∧
    (∀ (net : Net) (fs fs2 : FS) (libs : List Library) (paths log : List String),
      download_libraries net fs libs = .ok fs2 paths log → paths = artifactPaths libs) := by
  refine ⟨fun lib => rfl, fun l1 l2 h => ?_, ?_⟩
  · simp [downloadLibrariesLocalPath, h]
  · intro net fs fs2 libs paths log h
    exact download_libraries_ok_paths net libs fs fs2 paths log h

/-- Witness for C6: two distinct libraries with the same name resolve to the
same local path, and a concrete successful run pushes exactly the artifact
paths. -/
theorem library_path_deterministic_witness :
    downloadLibrariesLocalPath libMetaOnly =
      "minecraft/libs/" ++ replaceColonDash "org.lwjgl:lwjgl:3.3.1" ++ ".jar" ∧
    downloadLibrariesLocalPath ⟨⟨some ⟨"u1"⟩, none⟩, "g:a:1"⟩ =
      downloadLibrariesLocalPath ⟨⟨none, some []⟩, "g:a:1"⟩ ∧
    ["minecraft/libs/g-a-1.jar"] = artifactPaths [libArtifact] := by
  obtain ⟨h1, h2, h3⟩ := library_path_deterministic
  refine ⟨h1 libMetaOnly, h2 _ _ rfl, ?_⟩
  exact h3 oneLibNet emptyFS (emptyFS.write "minecraft/libs/g-a-1.jar" (FileData.bytes [0]))
    [libArtifact] ["minecraft/libs/g-a-1.jar"] ["lu"] (by decide)

/-! ## Claim C1 (corrected) -/

/-- C1 as stated is refuted: for a version detail whose library list is the
single metadata-only library `libMetaOnly`, `download_libraries` succeeds
with an empty path list, and the assembled classpath is
`";minecraft/1.20.1.jar"` — a leading empty entry followed by the jar — not
the separator-joined local library paths of L1..Ln followed by the jar
(which would be `"minecraft/libs/org.lwjgl-lwjgl-3.3.1.jar;minecraft/1.20.1.jar"`). -/
theorem classpath_claim_counterexample :
    download_libraries failNet emptyFS [libMetaOnly] = .ok emptyFS [] [] ∧
    buildClasspath [] "minecraft/1.20.1.jar" ≠
      joinSep ";" ([libMetaOnly].map downloadLibrariesLocalPath ++ ["minecraft/1.20.1.jar"]) :=
  ⟨rfl, by decide⟩

/-- C1 amended: whenever `download_libraries` succeeds and at least one
library supplied a plain artifact, the assembled classpath is exactly the
local paths of the artifact-supplying libraries, in manifest order, followed
by the client jar path, with consecutive entries separated by `";"`.
Metadata-only libraries contribute no entry, and when no library supplies an
artifact the classpath degenerates to `";" ++ jar` (a leading empty entry). -/
theorem classpath_assembly_amended (net : Net) (fs fs2 : FS) (libs : List Library)
    (paths log : List String) (jarPath : String)
    (h : download_libraries net fs libs = .ok fs2 paths log) (hne : paths ≠ []) :
    buildClasspath paths jarPath = joinSep ";" (artifactPaths libs ++ [jarPath]) := by
  have hp := download_libraries_ok_paths net libs fs fs2 paths log h
  rw [← hp, joinSep_append_last ";" paths jarPath hne, buildClasspath]

/-- Witness for C1 (amended) on a one-library run. -/
theorem classpath_assembly_amended_witness :
    buildClasspath ["minecraft/libs/g-a-1.jar"] "minecraft/1.0.jar" =
      joinSep ";" (artifactPaths [libArtifact] ++ ["minecraft/1.0.jar"]) :=
  classpath_assembly_amended oneLibNet emptyFS
    (emptyFS.write "minecraft/libs/g-a-1.jar" (FileData.bytes [0])) [libArtifact]
    ["minecraft/libs/g-a-1.jar"] ["lu"] "minecraft/1.0.jar" (by decide) (by decide)

/-! ## Claim C7 -/

/-- The demo archive of C7: entries `a.dll`, `b.so`, `readme.txt`. -/
def demoEntries : List ZipEntry := [⟨"a.dll", [1]⟩, ⟨"b.so", [2]⟩, ⟨"readme.txt", [3]⟩]

/-- C7: extraction writes exactly the entries that survive path-sanitization
and whose extension matches the `dll` suffix filter, each flat in the output
directory under only its base file name; everything else is skipped without
error.  In particular the `a.dll`/`b.so`/`readme.txt` archive, extracted into
an empty directory, yields exactly the single output file
`minecraft/natives/a.dll`. -/
theorem extract_filter_exact :
    (∀ (fs : FS) (es : List ZipEntry) (p : String),
      (extractArchive fs es).hasFile p = true ↔
      (fs.hasFile p = true ∨
        ∃ e ∈ es, ∃ f, dllEntryName e = some f ∧ p = "minecraft/natives/" ++ f)) ∧
    extractArchive emptyFS demoEntries =
      FS.mk [("minecraft/natives/a.dll", FileData.bytes [1])] :=
  ⟨fun fs es p => extractArchive_hasFile es fs p, by decide⟩

/-! ## Claim C8 -/

/-- C8: a library that supplies neither a plain artifact nor any native
classifier is skipped by both `download_libraries` and `extract_natives`
without error — no download is attempted, no path is pushed — and on a list
of only such libraries both functions still succeed, with no requests. -/
theorem metadata_only_library_skipped (net : Net) (fs : FS) (lib : Library)
    (rest : List Library) (hart : lib.downloads.artifact = none)
    (hcls : lib.downloads.classifiers = none ∨ lib.downloads.classifiers = some []) :
    download_libraries net fs (lib :: rest) = download_libraries net fs rest ∧
    extract_natives net fs (lib :: rest) = extract_natives net fs rest ∧
    (rest = [] →
      download_libraries net fs (lib :: rest) = .ok fs [] [] ∧
      extract_natives net fs (lib :: rest) = .ok fs []) := by
  have h1 : download_libraries net fs (lib :: rest) = download_libraries net fs rest := by
    simp [download_libraries, hart]
  have h2 : extract_natives net fs (lib :: rest) = extract_natives net fs rest := by
    rcases hcls with hc | hc
    · simp [extract_natives, hc]
    · simp [extract_natives, hc, lookupAssoc]
  refine ⟨h1, h2, fun hr => ?_⟩
  subst hr
  exact ⟨h1.trans rfl, h2.trans rfl⟩

/-- Witness for C8 on the concrete metadata-only library. -/
theorem metadata_only_library_skipped_witness :
    download_libraries failNet emptyFS [libMetaOnly] = .ok emptyFS [] [] ∧
    extract_natives failNet emptyFS [libMetaOnly] = .ok emptyFS [] :=
  (metadata_only_library_skipped failNet emptyFS libMetaOnly [] rfl (Or.inl rfl)).2.2 rfl

/-! ## Claim C3 -/

/-- C3: once the asset index has been fetched, the bulk download runs to
completion whatever the per-object network failures are: `download_assets`
still returns success, and every object whose GET succeeds ends up on disk
(objects whose GET fails are simply absent, without aborting the others). -/
theorem asset_partial_failure_isolated (net : Net)
    (netIndex : String → Option (List (String × String)))
    (fs : FS) (ai : AssetIndex) (objects : List (String × String))
    (hidx : netIndex ai.url = some objects) :
    ∃ fs3 log, download_assets net netIndex fs ai = .ok fs3 log ∧
      ∀ nh ∈ objects, ∀ d, net (assetObjectUrl nh.2) = some d →
        fs3.hasFile (assetObjectPath nh.2) = true := by
  simp only [download_assets, hidx]
  refine ⟨_, _, rfl, ?_⟩
  intro nh hm d hd
  refine legacyCopyAll_mono objects _ _ ?_
  exact bulkDownloadAssets_success_exists net (assetTargets objects) _
    (assetObjectUrl nh.2, assetObjectPath nh.2)
    (List.mem_map_of_mem _ hm) d hd

/-- The index oracle of the witness scenarios: two named objects. -/
def demoIndexOracle : String → Option (List (String × String)) :=
  fun u => if u = "iu" then some [("icons/a.png", "aa11"), ("icons/b.png", "bb22")] else none

/-- A network on which only the first object's GET succeeds. -/
def partialNet : Net :=
  fun u => if u = assetObjectUrl "aa11" then some (FileData.bytes [5]) else none

/-- Witness for C3: with one of two objects failing to download, the pass
returns success and the successful object is on disk. -/
theorem asset_partial_failure_isolated_witness :
    ∃ fs3 log, download_assets partialNet demoIndexOracle emptyFS ⟨"legacy", "iu"⟩ =
        .ok fs3 log ∧
      fs3.hasFile (assetObjectPath "aa11") = true := by
  obtain ⟨fs3, log, hok, hall⟩ :=
    asset_partial_failure_isolated partialNet demoIndexOracle emptyFS ⟨"legacy", "iu"⟩
      [("icons/a.png", "aa11"), ("icons/b.png", "bb22")] (by decide)
  exact ⟨fs3, log, hok,
    hall ("icons/a.png", "aa11") (by decide) (FileData.bytes [5]) (by decide)⟩

/-! ## Claim C5 -/

/-- C5: synchronization is idempotent.  A target whose path already exists is
skipped with no GET and no rewrite; a library whose artifact path exists is
treated as success (its path is still pushed); after any successful
`download_libraries` run, re-running it changes nothing and issues no GET;
and after a bulk asset pass in which every GET succeeds, a second bulk pass
issues zero downloads. -/
theorem sync_idempotent :
    (∀ (net : Net) (fs : FS) (t : String × String), fs.hasFile t.2 = true →
      downloadAssetObject net fs t = (fs, [])) ∧
    (∀ (net : Net) (fs : FS) (lib : Library) (a : DownloadInfo),
      lib.downloads.artifact = some a →
      fs.hasFile (downloadLibrariesLocalPath lib) = true →
      download_libraries net fs [lib] = .ok fs [downloadLibrariesLocalPath lib] []) ∧
    (∀ (net : Net) (fs fs2 : FS) (libs : List Library) (paths log : List String),
      download_libraries net fs libs = .ok fs2 paths log →
      download_libraries net fs2 libs = .ok fs2 paths []) ∧
    (∀ (net : Net) (fs : FS) (targets : List (String × String)),
      (∀ t ∈ targets, (net t.1).isSome = true) →
      bulkDownloadAssets net (bulkDownloadAssets net fs targets).1 targets =
        ((bulkDownloadAssets net fs targets).1, [])) := by
  refine ⟨downloadAssetObject_skip, ?_, ?_, ?_⟩
  · intro net fs lib a ha hex
    simp [download_libraries, ha, hex]
  · intro net fs fs2 libs paths log h
    exact download_libraries_rerun net libs fs fs2 paths log h
  · intro net fs targets hall
    apply bulkDownloadAssets_rerun
    intro t ht
    obtain ⟨d, hd⟩ := Option.isSome_iff_exists.mp (hall t ht)
    exact bulkDownloadAssets_success_exists net targets fs t ht d hd

/-- A file system already holding the one library jar and one asset object
of the witness scenario. -/
def cachedFS : FS :=
  (emptyFS.write "minecraft/libs/g-a-1.jar" (FileData.bytes [0])).write
    (assetObjectPath "aa11") (FileData.bytes [5])

/-- Witness for C5: a present asset target is skipped with no GET; a present
library jar makes the one-library run a no-request success; a successful run
re-run issues no GET; and a fully successful bulk pass followed by a second
pass issues zero downloads. -/
theorem sync_idempotent_witness :
    downloadAssetObject failNet cachedFS (assetObjectUrl "aa11", assetObjectPath "aa11") =
      (cachedFS, []) ∧
    download_libraries failNet cachedFS [libArtifact] =
      .ok cachedFS ["minecraft/libs/g-a-1.jar"] [] ∧
    download_libraries oneLibNet
      (emptyFS.write "minecraft/libs/g-a-1.jar" (FileData.bytes [0])) [libArtifact] =
      .ok (emptyFS.write "minecraft/libs/g-a-1.jar" (FileData.bytes [0]))
        ["minecraft/libs/g-a-1.jar"] [] ∧
    bulkDownloadAssets partialNet
      (bulkDownloadAssets partialNet emptyFS [(assetObjectUrl "aa11", assetObjectPath "aa11")]).1
      [(assetObjectUrl "aa11", assetObjectPath "aa11")] =
      ((bulkDownloadAssets partialNet emptyFS [(assetObjectUrl "aa11", assetObjectPath "aa11")]).1,
        []) := by
  obtain ⟨h1, h2, h3, h4⟩ := sync_idempotent
  refine ⟨h1 failNet cachedFS _ (by decide), h2 failNet cachedFS libArtifact ⟨"lu"⟩ rfl (by decide),
    h3 oneLibNet emptyFS (emptyFS.write "minecraft/libs/g-a-1.jar" (FileData.bytes [0]))
      [libArtifact] ["minecraft/libs/g-a-1.jar"] ["lu"] (by decide),
    h4 partialNet emptyFS _ ?_⟩
  intro t ht
  rw [List.mem_singleton.mp ht]
  decide

/-! ## Claim C9 -/

/-- C9: after `download_assets` returns successfully, the virtual legacy
mirror is a name-indexed copy of the hash-indexed object store — for every
`(name, hash)` object of the asset index whose object-store file exists on
disk, the file `minecraft/assets/virtual/legacy/<name>` exists as well. -/
theorem virtual_legacy_mirror_complete (net : Net)
    (netIndex : String → Option (List (String × String)))
    (fs fs3 : FS) (ai : AssetIndex) (objects : List (String × String))
    (log : List String)
    (hidx : netIndex ai.url = some objects)
    (hok : download_assets net netIndex fs ai = .ok fs3 log) :
    ∀ nh ∈ objects, fs3.hasFile (assetObjectPath nh.2) = true →
      fs3.hasFile (assetVirtualPath nh.1) = true := by
  intro nh hm hobj
  simp only [download_assets, hidx, AsResult.ok.injEq] at hok
  obtain ⟨h1, -⟩ := hok
  subst h1
  exact legacyCopyAll_invariant objects _ nh.1 nh.2 (by simpa using hm) hobj

/-- The file system produced by the C9 witness scenario (one of two objects
downloaded, then mirrored). -/
def mirroredFS : FS :=
  ⟨[("minecraft/assets/virtual/legacy/icons/a.png", FileData.bytes [5]),
    ("minecraft/assets/objects/aa/aa11", FileData.bytes [5]),
    ("minecraft/assets/indexes/legacy.json", FileData.bytes [])]⟩

/-- Witness for C9: in the partial-failure scenario the downloaded object's
virtual mirror file exists. -/
theorem virtual_legacy_mirror_complete_witness :
    mirroredFS.hasFile (assetVirtualPath "icons/a.png") = true :=
  virtual_legacy_mirror_complete partialNet demoIndexOracle emptyFS mirroredFS
    ⟨"legacy", "iu"⟩ [("icons/a.png", "aa11"), ("icons/b.png", "bb22")]
    ["https://resources.download.minecraft.net/aa/aa11",
     "https://resources.download.minecraft.net/bb/bb22"]
    (by decide) (by decide) ("icons/a.png", "aa11") (by decide) (by decide)

/-! ## Claim C10 -/

/-- C10: for a library with both a plain artifact and a `natives-windows`
classifier, `download_libraries` and `extract_natives` compute the identical
local path; consequently, once the plain artifact jar exists at that path,
`extract_natives` issues no GET for the native bundle and extracts the
matching entries from the file found at that path — the plain artifact jar —
instead of from the native bundle. -/
theorem native_artifact_path_collision (net : Net) (fs : FS) (lib : Library)
    (rest : List Library) (a nat : DownloadInfo)
    (cs : List (String × DownloadInfo)) (es : List ZipEntry)
    (ha : lib.downloads.artifact = some a)
    (hcs : lib.downloads.classifiers = some cs)
    (hnat : lookupAssoc "natives-windows" cs = some nat) :
    downloadLibrariesLocalPath lib = extractNativesLocalPath lib ∧
    (fs.lookupFile (extractNativesLocalPath lib) = some (FileData.archive es) →
      extract_natives net fs (lib :: rest) = extract_natives net (extractArchive fs es) rest) ∧
    (fs.hasFile (downloadLibrariesLocalPath lib) = false →
      net a.url = some (FileData.archive es) →
      download_libraries net fs [lib] =
        .ok (fs.write (downloadLibrariesLocalPath lib) (FileData.archive es))
          [downloadLibrariesLocalPath lib] [a.url] ∧
      extract_natives net
          (fs.write (downloadLibrariesLocalPath lib) (FileData.archive es)) [lib] =
        .ok (extractArchive
          (fs.write (downloadLibrariesLocalPath lib) (FileData.archive es)) es) []) := by
  refine ⟨rfl, ?_, ?_⟩
  · intro hfs
    have hex : fs.hasFile (extractNativesLocalPath lib) = true := by
      simp [FS.hasFile, hfs]
    simp [extract_natives, hcs, hnat, hex, hfs]
  · intro hex hnet
    constructor
    · simp [download_libraries, ha, hex, hnet]
    · have hex2 : (fs.write (downloadLibrariesLocalPath lib)
          (FileData.archive es)).hasFile (extractNativesLocalPath lib) = true :=
        FS.hasFile_write_self fs _ _
      have hlook : (fs.write (downloadLibrariesLocalPath lib)
          (FileData.archive es)).lookupFile (extractNativesLocalPath lib) =
          some (FileData.archive es) := by
        simp [extractNativesLocalPath, downloadLibrariesLocalPath]
      simp [extract_natives, hcs, hnat, hex2, hlook]

/-- A library supplying both a plain artifact (url `au`) and a
`natives-windows` bundle (url `nu`). -/
def libBoth : Library := ⟨⟨some ⟨"au"⟩, some [("natives-windows", ⟨"nu"⟩)]⟩, "g:b:2"⟩

/-- A network serving the artifact jar (containing `x.dll`) at `au` and the
native bundle (containing `y.dll`) at `nu`. -/
def bothNet : Net := fun u =>
  if u = "au" then some (FileData.archive [⟨"x.dll", [7]⟩])
  else if u = "nu" then some (FileData.archive [⟨"y.dll", [9]⟩]) else none

/-- Witness for C10: after `download_libraries` stores the artifact jar,
`extract_natives` issues no request (its log is empty — the `y.dll` bundle at
`nu` is never fetched) and extracts from the artifact jar's entries. -/
theorem native_artifact_path_collision_witness :
    download_libraries bothNet emptyFS [libBoth] =
      .ok (emptyFS.write (downloadLibrariesLocalPath libBoth)
          (FileData.archive [⟨"x.dll", [7]⟩]))
        [downloadLibrariesLocalPath libBoth] ["au"] ∧
    extract_natives bothNet
        (emptyFS.write (downloadLibrariesLocalPath libBoth)
          (FileData.archive [⟨"x.dll", [7]⟩])) [libBoth] =
      .ok (extractArchive (emptyFS.write (downloadLibrariesLocalPath libBoth)
          (FileData.archive [⟨"x.dll", [7]⟩])) [⟨"x.dll", [7]⟩]) [] :=
  (native_artifact_path_collision bothNet emptyFS libBoth [] ⟨"au"⟩ ⟨"nu"⟩
    [("natives-windows", ⟨"nu"⟩)] [⟨"x.dll", [7]⟩] rfl rfl (by decide)).2.2
    (by decide) (by decide)

/-! ## Claim C4 (corrected) -/

/-- C4 as stated is refuted in its "non-zero outcome" part: when the manifest
fetch fails, `main` prints its message and executes `return;` — a normal
return from `fn main() -> ()`, so the process exit status is 0.  At this
concrete input the run ends in `aborted` with exit code 0, and no non-zero
aborted outcome exists. -/
theorem fatal_failure_exit_code_counterexample :
    (runMain none (fun _ => none) failNet (fun _ => none) true 1 ["java"] emptyFS).1 =
      RunOutcome.aborted "Failed to fetch versions" 0 ∧
    ¬ ∃ msg c, c ≠ 0 ∧
      (runMain none (fun _ => none) failNet (fun _ => none) true 1 ["java"] emptyFS).1 =
        RunOutcome.aborted msg c := by
  refine ⟨rfl, ?_⟩
  rintro ⟨msg, c, hc, heq⟩
  rw [show (runMain none (fun _ => none) failNet (fun _ => none) true 1 ["java"]
      emptyFS).1 = RunOutcome.aborted "Failed to fetch versions" 0 from rfl] at heq
  injection heq with h1 h2
  exact hc h2.symm

/-- C4 amended: every failure in the manifest fetch, the version-detail
fetch, the client-jar download, or a library download is fatal — the
affected function returns an error at the first such failure, having issued
that one GET and nothing after it (no retry), and the run aborts with a
user-facing message; the process exit status, however, is 0, because `main`
returns normally after printing the error. -/
theorem fatal_failures_abort_amended
    (netDetail : String → Option VersionDetail) (net : Net)
    (netIndex : String → Option (List (String × String)))
    (javaPaths : List String) (fs : FS) (vid vurl : String) (vd : VersionDetail)
    (lib : Library) (rest : List Library) (a : DownloadInfo) (cd : FileData) :
    ((runMain none netDetail net netIndex true 1 javaPaths fs).1 =
      .aborted "Failed to fetch versions" 0) ∧
    (netDetail vurl = none →
      download_version_files netDetail net fs vid vurl = .err [vurl] ∧
      (javaPaths ≠ [] →
        (runMain (some [(vid, vurl)]) netDetail net netIndex true 1 javaPaths fs).1 =
          .aborted "Failed to download files" 0)) ∧
    (netDetail vurl = some vd → net vd.downloads.client.url = none →
      download_version_files netDetail net fs vid vurl =
        .err [vurl, vd.downloads.client.url] ∧
      (javaPaths ≠ [] →
        (runMain (some [(vid, vurl)]) netDetail net netIndex true 1 javaPaths fs).1 =
          .aborted "Failed to download files" 0)) ∧
    (lib.downloads.artifact = some a →
      fs.hasFile (downloadLibrariesLocalPath lib) = false →
      net a.url = none →
      download_libraries net fs (lib :: rest) = .err fs [a.url]) ∧
    (netDetail vurl = some vd → net vd.downloads.client.url = some cd →
      javaPaths ≠ [] →
      ∀ fsE logE, download_libraries net
          ((fs.write ("minecraft/" ++ vid ++ ".jar") cd).write
            ("minecraft/" ++ vid ++ ".json") (FileData.detail vd)) vd.libraries =
          .err fsE logE →
        (runMain (some [(vid, vurl)]) netDetail net netIndex true 1 javaPaths fs).1 =
          .aborted "Failed to download libraries" 0) := by
  refine ⟨rfl, ?_, ?_, ?_, ?_⟩
  · intro hd
    refine ⟨by simp [download_version_files, hd], fun hj => ?_⟩
    have hje : javaPaths.isEmpty = false := by simpa [List.isEmpty_iff] using hj
    simp [runMain, hje, download_version_files, hd]
  · intro hd hcl
    refine ⟨by simp [download_version_files, hd, hcl], fun hj => ?_⟩
    have hje : javaPaths.isEmpty = false := by simpa [List.isEmpty_iff] using hj
    simp [runMain, hje, download_version_files, hd, hcl]
  · intro ha hex hn
    exact download_libraries_first_failure net fs lib rest a ha hex hn
  · intro hd hcl hj fsE logE hdl
    have hje : javaPaths.isEmpty = false := by simpa [List.isEmpty_iff] using hj
    simp [runMain, hje, download_version_files, hd, hcl, hdl]

/-- The version detail of the C4 witness scenario: client jar at `cu`, one
library with artifact at `lu`. -/
def vdW : VersionDetail :=
  ⟨⟨⟨"cu"⟩⟩, "net.minecraft.client.main.Main", [libArtifact], ⟨"idx", "iu"⟩⟩

/-- A version-detail oracle answering only `u`. -/
def detailOnlyNet : String → Option VersionDetail :=
  fun u => if u = "u" then some vdW else none

/-- A network serving only the client jar at `cu` (library GETs fail). -/
def clientOnlyNet : Net :=
  fun u => if u = "cu" then some (FileData.bytes [0]) else none

/-- Witness for C4 (amended): the four failure kinds at concrete inputs —
failed manifest fetch aborts with exit code 0; failed detail fetch and failed
client-jar fetch error after exactly their one attempted GET; a failed
library download errors immediately with the single attempt logged; and the
run aborts with the library message and exit code 0. -/
theorem fatal_failures_abort_amended_witness :
    ((runMain none detailOnlyNet failNet (fun _ => none) true 1 ["java"] emptyFS).1 =
      RunOutcome.aborted "Failed to fetch versions" 0) ∧
    download_version_files (fun _ => none) failNet emptyFS "1.0" "u" = .err ["u"] ∧
    download_version_files detailOnlyNet failNet emptyFS "1.0" "u" = .err ["u", "cu"] ∧
    download_libraries failNet emptyFS [libArtifact] = .err emptyFS ["lu"] ∧
    (runMain (some [("1.0", "u")]) detailOnlyNet clientOnlyNet (fun _ => none) true 1
      ["java"] emptyFS).1 = RunOutcome.aborted "Failed to download libraries" 0 := by
  refine ⟨?_, ?_, ?_, ?_, ?_⟩
  · exact (fatal_failures_abort_amended detailOnlyNet failNet (fun _ => none) ["java"]
      emptyFS "1.0" "u" vdW libArtifact [] ⟨"lu"⟩ (FileData.bytes [0])).1
  · exact ((fatal_failures_abort_amended (fun _ => none) failNet (fun _ => none) ["java"]
      emptyFS "1.0" "u" vdW libArtifact [] ⟨"lu"⟩ (FileData.bytes [0])).2.1 rfl).1
  · exact ((fatal_failures_abort_amended detailOnlyNet failNet (fun _ => none) ["java"]
      emptyFS "1.0" "u" vdW libArtifact [] ⟨"lu"⟩ (FileData.bytes [0])).2.2.1
      (by decide) rfl).1
  · exact (fatal_failures_abort_amended detailOnlyNet failNet (fun _ => none) ["java"]
      emptyFS "1.0" "u" vdW libArtifact [] ⟨"lu"⟩ (FileData.bytes [0])).2.2.2.1
      rfl (by decide) rfl
  · exact (fatal_failures_abort_amended detailOnlyNet clientOnlyNet (fun _ => none) ["java"]
      emptyFS "1.0" "u" vdW libArtifact [] ⟨"lu"⟩ (FileData.bytes [0])).2.2.2.2
      (by decide) (by decide) (by decide)
      ((emptyFS.write ("minecraft/" ++ "1.0" ++ ".jar") (FileData.bytes [0])).write
        ("minecraft/" ++ "1.0" ++ ".json") (FileData.detail vdW)) ["lu"] (by decide)

end MCLauncher
